import Mathlib

/-!
Shallow embedding of the HuskyLens protocol client in src/huskyMcpChat.py
(class HuskyLensClient): JSON values as produced by json.loads, the pure
content extractor, the SSE-line listener, the request correlator and the
connect/call/close lifecycle, together with theorems about the claims of
the specification.
-/

set_option maxHeartbeats 1000000

/-- Python values produced by json.loads: null, strings, integers, booleans,
lists and dicts (field lists with distinct keys for well-formed inputs). -/
inductive Json where
  | null
  | str (s : String)
  | num (n : Int)
  | bool (b : Bool)
  | arr (xs : List Json)
  | obj (fields : List (String × Json))

/-- Python `x == k` for a string literal k: true only for an equal string. -/
def isStr (j : Json) (s : String) : Bool :=
  match j with
  | Json.str t => t == s
  | _ => false

/-- Lookup of a key in the field list of a dict (Python dicts hold one value per key). -/
def lookupField (fs : List (String × Json)) (k : String) : Option Json :=
  (fs.find? (fun p => p.1 == k)).map (fun p => p.2)

/-- Python `d.get(k, dflt)` on a dict. -/
def pyDictGet (fs : List (String × Json)) (k : String) (dflt : Json) : Json :=
  (lookupField fs k).getD dflt

/-- Python truthiness of a json value (`not response` is its negation). -/
def truthy : Json → Bool
  | Json.null => false
  | Json.str s => !s.data.isEmpty
  | Json.num n => !(n == 0)
  | Json.bool b => b
  | Json.arr xs => !xs.isEmpty
  | Json.obj fs => !fs.isEmpty

/-- Python substring test `needle in hay` on strings. -/
def strContains (hay needle : String) : Bool :=
  (List.range (hay.data.length + 1)).any (fun i => needle.data.isPrefixOf (hay.data.drop i))

/-- Python `k in x` for a string k: key test on dicts, substring test on
strings, membership on lists; none models the TypeError raised otherwise. -/
def pyIn (k : String) : Json → Option Bool
  | Json.obj fs => some (fs.any (fun p => p.1 == k))
  | Json.str s => some (strContains s k)
  | Json.arr xs => some (xs.any (fun j => isStr j k))
  | _ => none

/-- Python `x[k]` for a string key: dict lookup; none models KeyError or
TypeError on non-dicts. -/
def subscript (j : Json) (k : String) : Option Json :=
  match j with
  | Json.obj fs => lookupField fs k
  | _ => none

/-- Python `for b in x`: lists yield their elements, strings their characters,
dicts their keys; none models the TypeError on non-iterables. -/
def pyIter : Json → Option (List Json)
  | Json.arr xs => some xs
  | Json.str s => some (s.data.map (fun c => Json.str c.toString))
  | Json.obj fs => some (fs.map (fun p => Json.str p.1))
  | _ => none

/-- The comprehension `[b.get("text", "") for b in blocks if b.get("type") == "text"]`;
none models the AttributeError when a block is not a dict. -/
def filterBlocks : List Json → Option (List Json)
  | [] => some []
  | b :: rest =>
    match b with
    | Json.obj fs =>
      match filterBlocks rest with
      | none => none
      | some ks =>
        if isStr (pyDictGet fs "type" Json.null) "text"
        then some (pyDictGet fs "text" (Json.str "") :: ks)
        else some ks
    | _ => none

/-- The string carried by a json value, with the Python `get` default "". -/
def jsonStrD : Json → String
  | Json.str s => s
  | _ => ""

/-- Python `"\n".join(xs)`: none models the TypeError on a non-string element. -/
def joinStrs (xs : List Json) : Option String :=
  if xs.all (fun j => match j with | Json.str _ => true | _ => false)
  then some (String.intercalate "\n" (xs.filterMap (fun j => match j with | Json.str s => some s | _ => none)))
  else none

/-- HuskyLensClient.extract_content: the textual content of a response
envelope (none models an uncaught exception of the Python code). -/
def extract_content (response : Json) : Option String :=
  if truthy response = false then some ""
  else
    match pyIn "result" response with
    | none => none
    | some false => some ""
    | some true =>
      match subscript response "result" with
      | none => none
      | some result =>
        match pyIn "content" result with
        | none => none
        | some false => some ""
        | some true =>
          match subscript result "content" with
          | none => none
          | some content =>
            match pyIter content with
            | none => none
            | some blocks =>
              match filterBlocks blocks with
              | none => none
              | some texts => joinStrs texts

/-- The texts of the "text"-typed blocks of a content list, in order
(missing text fields contribute the empty string, as `b.get("text", "")` does). -/
def blockTexts : List Json → List String
  | [] => []
  | Json.obj fs :: rest =>
    if isStr (pyDictGet fs "type" Json.null) "text"
    then jsonStrD (pyDictGet fs "text" (Json.str "")) :: blockTexts rest
    else blockTexts rest
  | _ :: rest => blockTexts rest

/-- A content block on which the Python extractor cannot raise: a dict whose
"text" field, when the block is "text"-typed, is a string when present. -/
def goodBlock : Json → Bool
  | Json.obj fs =>
    if isStr (pyDictGet fs "type" Json.null) "text"
    then match pyDictGet fs "text" (Json.str "") with
         | Json.str _ => true
         | _ => false
    else true
  | _ => false

/-- Whitespace characters removed by the Python str.strip method. -/
def isSpace (c : Char) : Bool :=
  c = ' ' || c = '\t' || c = '\x0a' || c = '\x0d' || c = '\x0c' || c = '\x0b'

/-- Python str.strip(): remove leading and trailing whitespace. -/
def pyStrip (s : String) : String :=
  String.mk (((s.data.dropWhile isSpace).reverse.dropWhile isSpace).reverse)

/-- Python str.startswith. -/
def strStartsWith (s pre : String) : Bool :=
  pre.data.isPrefixOf s.data

/-- Python slicing s[n:]. -/
def strDrop (s : String) (n : Nat) : String :=
  String.mk (s.data.drop n)

def isDigit (c : Char) : Bool :=
  '0' ≤ c && c ≤ '9'

def digitsToNat (ds : List Char) : Nat :=
  ds.foldl (fun acc c => acc * 10 + (c.toNat - '0'.toNat)) 0

def skipWs (cs : List Char) : List Char :=
  cs.dropWhile isSpace

/-- Parse the remainder of a JSON string literal (opening quote consumed),
handling the escapes used by this protocol. -/
def parseJString : List Char → Option (String × List Char)
  | [] => none
  | c :: rest =>
    if c = '"' then some ("", rest)
    else if c = '\\' then
      match rest with
      | [] => none
      | e :: rest2 =>
        let ec : Option Char :=
          if e = '"' then some '"'
          else if e = '\\' then some '\\'
          else if e = '/' then some '/'
          else if e = 'n' then some '\x0a'
          else if e = 't' then some '\t'
          else if e = 'r' then some '\x0d'
          else none
        match ec with
        | none => none
        | some ch => (parseJString rest2).map (fun pr => (String.mk (ch :: pr.1.data), pr.2))
    else (parseJString rest).map (fun pr => (String.mk (c :: pr.1.data), pr.2))

mutual

/-- Recursive-descent model of Python json.loads on the subset of JSON this
protocol exchanges: objects, arrays, strings, integers, booleans and null.
The fuel argument only bounds nesting; callers pass more than the input length. -/
def parseVal : Nat → List Char → Option (Json × List Char)
  | 0, _ => none
  | Nat.succ f, cs0 =>
    match skipWs cs0 with
    | [] => none
    | c :: rest =>
      if c = '"' then
        match parseJString rest with
        | some pr => some (Json.str pr.1, pr.2)
        | none => none
      else if c = '\x7b' then parseMembers f rest
      else if c = '[' then parseElems f rest
      else if c = 't' then
        if "rue".data.isPrefixOf rest then some (Json.bool true, rest.drop 3) else none
      else if c = 'f' then
        if "alse".data.isPrefixOf rest then some (Json.bool false, rest.drop 4) else none
      else if c = 'n' then
        if "ull".data.isPrefixOf rest then some (Json.null, rest.drop 3) else none
      else if c = '-' then
        let ds := rest.takeWhile isDigit
        if ds.isEmpty then none
        else some (Json.num (-(digitsToNat ds : Int)), rest.dropWhile isDigit)
      else if isDigit c then
        let ds := rest.takeWhile isDigit
        some (Json.num (digitsToNat (c :: ds) : Int), rest.dropWhile isDigit)
      else none

/-- Members of an object after the opening brace. -/
def parseMembers : Nat → List Char → Option (Json × List Char)
  | 0, _ => none
  | Nat.succ f, cs =>
    match skipWs cs with
    | '\x7d' :: rest => some (Json.obj [], rest)
    | '"' :: rest =>
      match parseJString rest with
      | none => none
      | some pr =>
        match skipWs pr.2 with
        | ':' :: r2 =>
          match parseVal f r2 with
          | none => none
          | some vr =>
            match skipWs vr.2 with
            | ',' :: r4 =>
              match parseMembers f r4 with
              | some (Json.obj ms, r5) => some (Json.obj ((pr.1, vr.1) :: ms), r5)
              | _ => none
            | '\x7d' :: r4 => some (Json.obj [(pr.1, vr.1)], r4)
            | _ => none
        | _ => none
    | _ => none

/-- Elements of an array after the opening bracket. -/
def parseElems : Nat → List Char → Option (Json × List Char)
  | 0, _ => none
  | Nat.succ f, cs =>
    match skipWs cs with
    | ']' :: rest => some (Json.arr [], rest)
    | cs2 =>
      match parseVal f cs2 with
      | none => none
      | some vr =>
        match skipWs vr.2 with
        | ',' :: r2 =>
          match parseElems f r2 with
          | some (Json.arr es, r3) => some (Json.arr (vr.1 :: es), r3)
          | _ => none
        | ']' :: r2 => some (Json.arr [vr.1], r2)
        | _ => none

end

/-- Python json.loads: parse a full JSON document, rejecting trailing junk. -/
def json_loads (s : String) : Option Json :=
  match parseVal (s.data.length + 1) s.data with
  | some (j, rest) => if (skipWs rest).isEmpty then some j else none
  | none => none

/-- A character matched by the `[a-f0-9-]` class of the endpoint regex. -/
def hexDash (c : Char) : Bool :=
  ('a' ≤ c && c ≤ 'f') || ('0' ≤ c && c ≤ '9') || c = '-'

/-- The literal part of the endpoint pattern. -/
def sessionPat : String := "/message?session_id="

/-- One anchored attempt of the regex `(/message\?session_id=[a-f0-9-]+)`:
the literal followed by a maximal nonempty run of the class. -/
def matchAt (cs : List Char) : Option String :=
  if sessionPat.data.isPrefixOf cs then
    if ((cs.drop sessionPat.data.length).takeWhile hexDash).isEmpty then none
    else some (String.mk (sessionPat.data ++ (cs.drop sessionPat.data.length).takeWhile hexDash))
  else none

/-- re.search of the endpoint pattern: leftmost successful anchored attempt. -/
def re_search_session (cs : List Char) : Option String :=
  match matchAt cs with
  | some m => some m
  | none =>
    match cs with
    | [] => none
    | _ :: cs2 => re_search_session cs2

/-- Status of the background asyncio task running _listen_sse: the attribute
is None before connect, holds a running task after create_task, and a task
marked for cancellation after task.cancel(). -/
inductive TaskState where
  | noTask
  | running
  | cancelled
  deriving DecidableEq

/-- Status of the aiohttp ClientSession attribute: None before connect,
then an open session, then a closed one (the object stays truthy). -/
inductive SessState where
  | noSession
  | opened
  | closed
  deriving DecidableEq

/-- The mutable attributes set up by HuskyLensClient.__init__.  A pending
response is a registered asyncio.Future: none while unresolved, some v once
set_result(v) ran. -/
structure ClientState where
  server_url : String
  session : SessState
  request_id : Nat
  message_url : Option String
  pending_responses : List (Nat × Option Json)
  initialized : Bool
  sse_task : TaskState

/-- Python rstrip of trailing slash characters, as applied to server_url. -/
def rstripSlash (s : String) : String :=
  String.mk ((s.data.reverse.dropWhile (fun c => c = '/')).reverse)

/-- HuskyLensClient.__init__(server_url). -/
def initClient (server_url : String) : ClientState :=
  { server_url := rstripSlash server_url
    session := SessState.noSession
    request_id := 0
    message_url := none
    pending_responses := []
    initialized := false
    sse_task := TaskState.noTask }

/-- Python truthiness of self.message_url (None and "" are falsy). -/
def urlTruthy : Option String → Bool
  | none => false
  | some s => !s.data.isEmpty

/-- The slot registered for an identifier in self.pending_responses. -/
def futLookup (l : List (Nat × Option Json)) (k : Nat) : Option (Option Json) :=
  (l.find? (fun p => p.1 == k)).map (fun p => p.2)

/-- Python equality between the id field of json_data and an integer key of
pending_responses (booleans compare equal to 0 and 1, as in Python). -/
def idMatches (idv : Json) (k : Nat) : Bool :=
  match idv with
  | Json.num n => n == (k : Int)
  | Json.bool b => (if b then (1 : Int) else 0) == (k : Int)
  | _ => false

/-- Lines 95-98 of _listen_sse: given a parsed payload, when it is a dict
carrying an id registered in pending_responses, set_result the whole envelope
on that future; set_result on an already-completed future raises
InvalidStateError, which the bare except swallows, so a completed slot is
left unchanged.  All other payloads are dropped. -/
def handle_json (s : ClientState) (j : Json) : ClientState :=
  match j with
  | Json.obj fs =>
    match lookupField fs "id" with
    | some idv =>
      if s.pending_responses.any (fun p => idMatches idv p.1)
      then { s with pending_responses :=
               (s.pending_responses.map
                 (fun p => if idMatches idv p.1 && p.2.isNone then (p.1, some j) else p)) }
      else s
    | none => s
  | _ => s

/-- The payload dispatch of _listen_sse for one `data:`-framed payload:
endpoint announcements (regex form, then bare /message form), the [DONE]
sentinel, and JSON-RPC response envelopes; malformed payloads are dropped
by the bare except. -/
def listen_data (s : ClientState) (data : String) : ClientState :=
  if strContains data "session_id=" then
    match re_search_session data.data with
    | some m => { s with message_url := some (s.server_url ++ m) }
    | none => s
  else if strStartsWith data "/message" then
    { s with message_url := some (s.server_url ++ data) }
  else if data == "[DONE]" then s
  else
    match json_loads data with
    | some j => handle_json s j
    | none => s

/-- One stream line of _listen_sse: decode, strip, and process only lines
with the `data: ` framing prefix. -/
def listen_line (s : ClientState) (line : String) : ClientState :=
  if strStartsWith (pyStrip line) "data: "
  then listen_data s (strDrop (pyStrip line) 6)
  else s

/-- The listener draining a list of stream lines in order. -/
def listen_lines (s : ClientState) (ls : List String) : ClientState :=
  ls.foldl listen_line s

/-- Whether a stream line makes _listen_sse assign self.message_url. -/
def endpointLine (line : String) : Bool :=
  if strStartsWith (pyStrip line) "data: " then
    if strContains (strDrop (pyStrip line) 6) "session_id="
    then (re_search_session (strDrop (pyStrip line) 6).data).isSome
    else strStartsWith (strDrop (pyStrip line) 6) "/message"
  else false

/-- The client together with the log of POST bodies it sent (url, payload). -/
structure World where
  client : ClientState
  posts : List (String × Json)

def initWorld (server_url : String) : World :=
  { client := initClient server_url, posts := [] }

/-- Body of a JSON-RPC notification as built by _send_notification. -/
def notifPayload (method : String) : Json :=
  Json.obj [("jsonrpc", Json.str "2.0"), ("method", Json.str method), ("params", Json.obj [])]

/-- Body of a JSON-RPC request as built by _send_request. -/
def requestPayload (rid : Nat) (method : String) (params : Json) : Json :=
  Json.obj [("jsonrpc", Json.str "2.0"), ("id", Json.num (rid : Int)),
            ("method", Json.str method), ("params", params)]

/-- The state mutation done at the start of _send_request: increment the
request counter and register a fresh unresolved future under the new id. -/
def registerClient (c : ClientState) : ClientState :=
  { c with request_id := c.request_id + 1
           pending_responses := c.pending_responses ++ [(c.request_id + 1, (none : Option Json))] }

/-- The error-path cleanup of _send_request: drop the registration of rid
(the code guards with a membership test, so a missing key is also fine). -/
def dropPending (c : ClientState) (rid : Nat) : ClientState :=
  { c with pending_responses := c.pending_responses.filter (fun p => !(p.1 == rid)) }

/-- HuskyLensClient._send_request.  The run of one call is parameterised by
its transport outcome: postOk says whether the POST (and reading its body)
succeeded, postErr is str(e) of the transport exception otherwise, and
arrivals are the stream lines the background listener drains while this
call awaits its future.  Raising is modelled as Except.error (paired with
the unchanged world); the error-shaped results the code returns instead of
raising are ordinary Except.ok dicts.  A timeout surfaces as
str(asyncio.TimeoutError()) = "". -/
def send_request (w : World) (method : String) (params : Json)
    (postOk : Bool) (postErr : String) (arrivals : List String) :
    Except String Json × World :=
  if urlTruthy w.client.message_url = false then (Except.error "Not connected.", w)
  else if postOk then
    match futLookup (listen_lines (registerClient w.client) arrivals).pending_responses
        (w.client.request_id + 1) with
    | some (some v) =>
      (Except.ok v,
       { client := listen_lines (registerClient w.client) arrivals
         posts := w.posts ++ [(w.client.message_url.getD "",
                               requestPayload (w.client.request_id + 1) method params)] })
    | _ =>
      (Except.ok (Json.obj [("error", Json.str "")]),
       { client := dropPending (listen_lines (registerClient w.client) arrivals) (w.client.request_id + 1)
         posts := w.posts ++ [(w.client.message_url.getD "",
                               requestPayload (w.client.request_id + 1) method params)] })
  else
    (Except.ok (Json.obj [("error", Json.str postErr)]),
     { client := dropPending (registerClient w.client) (w.client.request_id + 1)
       posts := w.posts })

/-- HuskyLensClient._send_notification: fire-and-forget POST, only when a
submission endpoint is known. -/
def send_notification (w : World) (method : String) : World :=
  if urlTruthy w.client.message_url then
    { w with posts := w.posts ++ [(w.client.message_url.getD "", notifPayload method)] }
  else w

/-- HuskyLensClient.call_tool. -/
def call_tool (w : World) (tool : String) (args : Json)
    (postOk : Bool) (postErr : String) (arrivals : List String) :
    Except String Json × World :=
  send_request w "tools/call" (Json.obj [("name", Json.str tool), ("arguments", args)])
    postOk postErr arrivals

/-- Parameters of the initialize request sent by _initialize. -/
def initParams : Json :=
  Json.obj [("protocolVersion", Json.str "2024-11-05"),
            ("capabilities", Json.obj []),
            ("clientInfo", Json.obj [("name", Json.str "HuskyLens-Py"), ("version", Json.str "1.2.0")])]

/-- HuskyLensClient._initialize: send the initialize request, then set
self.initialized and send the initialized notification regardless of the
value the request returned (only a raised exception propagates). -/
def initializeClient (w : World) (postOk : Bool) (postErr : String) (arrivals : List String) :
    Except String Unit × World :=
  match send_request w "initialize" initParams postOk postErr arrivals with
  | (Except.error e, w1) => (Except.error e, w1)
  | (Except.ok _, w1) =>
    (Except.ok (),
     send_notification { w1 with client := { w1.client with initialized := true } }
       "notifications/initialized")

/-- The 50 poll attempts of the endpoint wait in connect(). -/
def connect_attempts : Nat := 50

/-- The asyncio.sleep(0.1) between attempts, in milliseconds. -/
def connect_poll_interval_ms : Nat := 100

/-- The polling loop of connect(): break as soon as self.message_url is truthy,
else sleep for one interval, during which the listener drains the stream
lines the schedule delivers for that tick. -/
def poll_loop (schedule : Nat → List String) : Nat → ClientState → ClientState
  | 0, s => s
  | Nat.succ n, s =>
    if urlTruthy s.message_url then s
    else poll_loop schedule n (listen_lines s (schedule (connect_attempts - Nat.succ n)))

/-- HuskyLensClient.connect(): open the session, start the listener task,
poll for the endpoint and raise when it never appears, else run the
initialize handshake. -/
def connect (w : World) (schedule : Nat → List String)
    (postOk : Bool) (postErr : String) (arrivals : List String) :
    Except String Unit × World :=
  let c0 := { w.client with session := SessState.opened, sse_task := TaskState.running }
  let c1 := poll_loop schedule connect_attempts c0
  if urlTruthy c1.message_url then initializeClient { w with client := c1 } postOk postErr arrivals
  else (Except.error "Failed to get session URL from MCP server :(", { w with client := c1 })

/-- HuskyLensClient.close(): cancel the listener task when one was created
and close the session when one was opened; both guards test Python object
truthiness, so close never raises and is safe on any state. -/
def close (s : ClientState) : ClientState :=
  let s1 := if s.sse_task = TaskState.noTask then s else { s with sse_task := TaskState.cancelled }
  if s1.session = SessState.noSession then s1 else { s1 with session := SessState.closed }

/-- main() enters main_loop exactly when connect() returned normally. -/
def main_enters_loop (r : Except String Unit × World) : Bool :=
  match r.1 with
  | Except.ok _ => true
  | Except.error _ => false

def exceptIsOk {e a : Type} : Except e a → Bool
  | Except.ok _ => true
  | Except.error _ => false

/-- One externally observable step of a client session, used to state the
correlator invariants: a request/response cycle, stream lines drained by
the listener outside any call, or a close. -/
inductive Op where
  | send (method : String) (params : Json) (postOk : Bool) (postErr : String) (arrivals : List String)
  | hear (ls : List String)
  | closeOp

def applyOp (w : World) : Op → World
  | Op.send m p ok err arr => (send_request w m p ok err arr).2
  | Op.hear ls => { w with client := listen_lines w.client ls }
  | Op.closeOp => { w with client := close w.client }

def runOps : World → List Op → World
  | w, [] => w
  | w, op :: rest => runOps (applyOp w op) rest

/-- The request identifiers allocated along a run (an allocation happens
exactly when _send_request passes its connectivity guard). -/
def allocIds : World → List Op → List Nat
  | _, [] => []
  | w, op :: rest =>
    match op with
    | Op.send _ _ _ _ _ =>
      if urlTruthy w.client.message_url
      then (w.client.request_id + 1) :: allocIds (applyOp w op) rest
      else allocIds (applyOp w op) rest
    | _ => allocIds (applyOp w op) rest

/-- The identifiers currently registered in the pending-request mapping. -/
def pendingKeys (c : ClientState) : List Nat :=
  c.pending_responses.map (fun p => p.1)

/-- The correlator invariant: at most one pending entry per identifier, and
every registered identifier lies in [1, request_id]. -/
def ClientInv (c : ClientState) : Prop :=
  (pendingKeys c).Nodup ∧ ∀ k ∈ pendingKeys c, 1 ≤ k ∧ k ≤ c.request_id

/-! Concrete runs of the embedded client used to settle the scenario claims. -/

/-- The id field of a logged POST body, when it is an integer. -/
def postIdNum (pr : String × Json) : Option Int :=
  match pr.2 with
  | Json.obj fs =>
    match lookupField fs "id" with
    | some (Json.num n) => some n
    | _ => none
  | _ => none

def c1World0 : World := initWorld "http://h"

/-- The stream delivers the endpoint announcement during the first poll tick. -/
def c1Schedule : Nat → List String :=
  fun k => if k == 0 then ["data: /message?session_id=abc-123"] else []

def c1Connect : Except String Unit × World := connect c1World0 c1Schedule true "" []

/-- The response envelope of the end-to-end scenario, with id 1 as the
specification narrates it. -/
def c1RespLine1 : String :=
  "data: \x7b\"id\":1,\"result\":\x7b\"content\":[\x7b\"type\":\"text\",\"text\":\"FaceRecognition,ObjectTracking\"\x7d]\x7d\x7d"

/-- The same envelope carrying id 2, the identifier the call actually uses. -/
def c1RespLine2 : String :=
  "data: \x7b\"id\":2,\"result\":\x7b\"content\":[\x7b\"type\":\"text\",\"text\":\"FaceRecognition,ObjectTracking\"\x7d]\x7d\x7d"

def c1Args : Json := Json.obj [("operation", Json.str "application_list")]

def c1Call1 : Except String Json × World :=
  call_tool c1Connect.2 "manage_applications" c1Args true "" [c1RespLine1]

def c1Call2 : Except String Json × World :=
  call_tool c1Connect.2 "manage_applications" c1Args true "" [c1RespLine2]

/-- The id the first tool call is sent with: the id of the last logged POST. -/
def c1SentId : Option Int := (c1Call1.2.posts.getLast?).bind postIdNum

def c1Extract1 : Option (Option String) :=
  match c1Call1.1 with
  | Except.ok j => some (extract_content j)
  | _ => none

def c1Extract2 : Option (Option String) :=
  match c1Call2.1 with
  | Except.ok j => some (extract_content j)
  | _ => none

/-- A client with one unresolved pending request, id 1. -/
def c3State : ClientState :=
  { initClient "http://h" with pending_responses := [(1, none)] }

def c3Resp : Json := Json.obj [("id", Json.num 1), ("result", Json.str "ok")]

/-- A client with one unresolved pending request, id 2 (witness run). -/
def c3WState : ClientState :=
  { initClient "http://h" with pending_responses := [(2, none)] }

/-- A client whose only pending id, 7, does not match the envelope. -/
def c3NState : ClientState :=
  { initClient "http://h" with pending_responses := [(7, none)] }

def c3WFields : List (String × Json) := [("id", Json.num 2), ("result", Json.str "ok")]

/-- A world in the Handshaking stage: endpoint known, initialize in flight,
so self.initialized is still False and the handshake has not completed. -/
def c4State : World :=
  { client := { initClient "http://h" with
                  session := SessState.opened
                  sse_task := TaskState.running
                  message_url := some "http://h/message?session_id=ab" }
    posts := [] }

def c4Call : Except String Json × World :=
  call_tool c4State "manage_applications" (Json.obj [("operation", Json.str "application_list")]) true "" []

/-- A connected world with no pending requests (witness runs for C5/C10). -/
def connectedWorld : World :=
  { client := { initClient "http://h" with
                  session := SessState.opened
                  sse_task := TaskState.running
                  message_url := some "http://h/message?session_id=ab" }
    posts := [] }

def c6BlockA : Json := Json.obj [("type", Json.str "text"), ("text", Json.str "A")]
def c6BlockImg : Json := Json.obj [("type", Json.str "image"), ("data", Json.str "...")]
def c6BlockB : Json := Json.obj [("type", Json.str "text"), ("text", Json.str "B")]

/-! General lemmas about the listener and the correlator. -/

theorem map_fst_update (l : List (Nat × Option Json)) (f : Nat × Option Json → Nat × Option Json)
    (hf : ∀ p, (f p).1 = p.1) :
    (l.map f).map (fun p => p.1) = l.map (fun p => p.1) := by
  induction l with
  | nil => rfl
  | cons a t ih => simp [hf, ih]

theorem handle_json_fields (s : ClientState) (j : Json) :
    pendingKeys (handle_json s j) = pendingKeys s ∧
    (handle_json s j).request_id = s.request_id ∧
    (handle_json s j).message_url = s.message_url ∧
    (handle_json s j).server_url = s.server_url ∧
    (handle_json s j).initialized = s.initialized := by
  cases j with
  | obj fs =>
    simp only [handle_json]
    split
    · split
      · refine ⟨?_, rfl, rfl, rfl, rfl⟩
        simp only [pendingKeys]
        exact map_fst_update _ _ (by intro p; split <;> rfl)
      · exact ⟨rfl, rfl, rfl, rfl, rfl⟩
    · exact ⟨rfl, rfl, rfl, rfl, rfl⟩
  | null => exact ⟨rfl, rfl, rfl, rfl, rfl⟩
  | str a => exact ⟨rfl, rfl, rfl, rfl, rfl⟩
  | num a => exact ⟨rfl, rfl, rfl, rfl, rfl⟩
  | bool a => exact ⟨rfl, rfl, rfl, rfl, rfl⟩
  | arr a => exact ⟨rfl, rfl, rfl, rfl, rfl⟩

theorem listen_data_fields (s : ClientState) (d : String) :
    pendingKeys (listen_data s d) = pendingKeys s ∧
    (listen_data s d).request_id = s.request_id ∧
    (listen_data s d).server_url = s.server_url ∧
    (listen_data s d).initialized = s.initialized := by
  simp only [listen_data]
  split
  · split
    · exact ⟨rfl, rfl, rfl, rfl⟩
    · exact ⟨rfl, rfl, rfl, rfl⟩
  · split
    · exact ⟨rfl, rfl, rfl, rfl⟩
    · split
      · exact ⟨rfl, rfl, rfl, rfl⟩
      · split
        · next j hj =>
            have h := handle_json_fields s j
            exact ⟨h.1, h.2.1, h.2.2.2.1, h.2.2.2.2⟩
        · exact ⟨rfl, rfl, rfl, rfl⟩

theorem listen_line_fields (s : ClientState) (line : String) :
    pendingKeys (listen_line s line) = pendingKeys s ∧
    (listen_line s line).request_id = s.request_id ∧
    (listen_line s line).server_url = s.server_url ∧
    (listen_line s line).initialized = s.initialized := by
  simp only [listen_line]
  split
  · exact listen_data_fields s _
  · exact ⟨rfl, rfl, rfl, rfl⟩

theorem str_data_append (a b : String) : (a ++ b).data = a.data ++ b.data := rfl

theorem matchAt_shape (cs : List Char) (m : String) (h : matchAt cs = some m) :
    m.data ≠ [] := by
  simp only [matchAt] at h
  split at h
  · split at h
    · exact absurd h (by simp)
    · cases h
      intro hh
      rw [List.append_eq_nil] at hh
      exact absurd hh.1 (by decide)
  · exact absurd h (by simp)

theorem re_search_nonempty (cs : List Char) : ∀ m : String,
    re_search_session cs = some m → m.data ≠ [] := by
  induction cs with
  | nil =>
    intro m h
    rw [re_search_session] at h
    have h0 : matchAt [] = none := by decide
    rw [h0] at h
    simp at h
  | cons c cs2 ih =>
    intro m h
    rw [re_search_session] at h
    cases hma : matchAt (c :: cs2) with
    | some m2 =>
      rw [hma] at h
      simp at h
      cases h
      exact matchAt_shape _ _ hma
    | none =>
      rw [hma] at h
      simp at h
      exact ih m h

theorem strStartsWith_message_nonempty (d : String)
    (h : strStartsWith d "/message" = true) : d.data ≠ [] := by
  intro hd
  rw [strStartsWith, hd] at h
  exact absurd h (by decide)

theorem urlTruthy_append (a b : String) (hb : b.data ≠ []) :
    urlTruthy (some (a ++ b)) = true := by
  simp only [urlTruthy, str_data_append]
  simp [List.isEmpty_iff, hb]

theorem listen_data_url_mono (s : ClientState) (d : String)
    (h : urlTruthy s.message_url = true) :
    urlTruthy (listen_data s d).message_url = true := by
  simp only [listen_data]
  split
  · split
    · next m hm => exact urlTruthy_append _ _ (re_search_nonempty d.data m hm)
    · exact h
  · split
    · next hpre => exact urlTruthy_append _ _ (strStartsWith_message_nonempty d hpre)
    · split
      · exact h
      · split
        · next j hj => rw [(handle_json_fields s j).2.2.1]; exact h
        · exact h

theorem listen_line_url_mono (s : ClientState) (line : String)
    (h : urlTruthy s.message_url = true) :
    urlTruthy (listen_line s line).message_url = true := by
  simp only [listen_line]
  split
  · exact listen_data_url_mono s _ h
  · exact h

theorem listen_lines_url_mono (ls : List String) : ∀ s : ClientState,
    urlTruthy s.message_url = true → urlTruthy (listen_lines s ls).message_url = true := by
  induction ls with
  | nil => intro s h; exact h
  | cons l t ih =>
    intro s h
    exact ih (listen_line s l) (listen_line_url_mono s l h)

theorem listen_line_url_stable (s : ClientState) (line : String)
    (h : endpointLine line = false) :
    (listen_line s line).message_url = s.message_url := by
  rw [endpointLine] at h
  simp only [listen_line, listen_data]
  split
  · next hpre =>
    rw [if_pos hpre] at h
    split
    · next hsid =>
      rw [if_pos hsid] at h
      cases hre : re_search_session (strDrop (pyStrip line) 6).data with
      | some m => rw [hre] at h; simp at h
      | none => rfl
    · next hsid =>
      rw [if_neg hsid] at h
      split
      · next hmsg => rw [hmsg] at h; simp at h
      · split
        · rfl
        · split
          · next j hj => exact (handle_json_fields s j).2.2.1
          · rfl
  · rfl

theorem listen_lines_url_stable (ls : List String) : ∀ s : ClientState,
    (∀ l ∈ ls, endpointLine l = false) →
    (listen_lines s ls).message_url = s.message_url := by
  induction ls with
  | nil => intro s _; rfl
  | cons l t ih =>
    intro s h
    have h1 : (listen_lines (listen_line s l) t).message_url = (listen_line s l).message_url :=
      ih (listen_line s l) (fun x hx => h x (List.mem_cons_of_mem l hx))
    have h2 := listen_line_url_stable s l (h l (List.mem_cons_self l t))
    simp only [listen_lines, List.foldl] at h1 ⊢
    exact h1.trans h2

theorem poll_loop_none (schedule : Nat → List String)
    (h : ∀ k, ∀ l ∈ schedule k, endpointLine l = false) :
    ∀ (n : Nat) (s : ClientState), s.message_url = none →
      (poll_loop schedule n s).message_url = none := by
  intro n
  induction n with
  | zero => intro s hs; exact hs
  | succ n ih =>
    intro s hs
    rw [poll_loop]
    have ht : urlTruthy s.message_url = false := by rw [hs]; rfl
    rw [ht]
    simp only [Bool.false_eq_true, if_false]
    apply ih
    rw [listen_lines_url_stable _ _ (h _)]
    exact hs

/-! The claims. -/

/-- C7: connect() polls a bounded number of attempts (50) at a fixed short
interval (100 ms), about 5 seconds in total, for the submission endpoint;
when no stream line ever announces an endpoint, connect() fails with the
connection-setup error, and main() does not enter the command loop. -/
theorem c7_connect_bounded (u : String) (schedule : Nat → List String)
    (postOk : Bool) (postErr : String) (arrivals : List String)
    (h : ∀ k, ∀ l ∈ schedule k, endpointLine l = false) :
    connect_attempts = 50 ∧
    connect_poll_interval_ms = 100 ∧
    connect_attempts * connect_poll_interval_ms = 5000 ∧
    (connect (initWorld u) schedule postOk postErr arrivals).1
      = Except.error "Failed to get session URL from MCP server :(" ∧
    main_enters_loop (connect (initWorld u) schedule postOk postErr arrivals) = false := by
  have hc : (poll_loop schedule connect_attempts
      { (initWorld u).client with session := SessState.opened, sse_task := TaskState.running }).message_url = none :=
    poll_loop_none schedule h connect_attempts _ rfl
  have ht : urlTruthy (poll_loop schedule connect_attempts
      { (initWorld u).client with session := SessState.opened, sse_task := TaskState.running }).message_url = false := by
    rw [hc]; rfl
  refine ⟨rfl, rfl, rfl, ?_, ?_⟩
  · simp only [connect, ht, Bool.false_eq_true, if_false]
  · simp only [main_enters_loop, connect, ht, Bool.false_eq_true, if_false]

theorem c7_witness :
    (∀ k, ∀ l ∈ (fun _ : Nat => ([] : List String)) k, endpointLine l = false) ∧
    (connect (initWorld "http://h") (fun _ : Nat => ([] : List String)) true "" []).1
      = Except.error "Failed to get session URL from MCP server :(" ∧
    main_enters_loop (connect (initWorld "http://h") (fun _ : Nat => ([] : List String)) true "" []) = false := by
  have h : ∀ k, ∀ l ∈ (fun _ : Nat => ([] : List String)) k, endpointLine l = false := by
    intro k l hl
    exact absurd hl (List.not_mem_nil l)
  have hm := c7_connect_bounded "http://h" (fun _ : Nat => ([] : List String)) true "" [] h
  exact ⟨h, hm.2.2.2.1, hm.2.2.2.2⟩

/-- C8: close() is idempotent and safe on every state, including the state
produced by __init__ before any connect; after close no listener task is
left in the running state (the cancelled task stops at its next suspension
point under the cooperative scheduler). -/
theorem c8_close_safe (s : ClientState) (u : String) :
    close (close s) = close s ∧
    (close s).sse_task ≠ TaskState.running ∧
    close (initClient u) = initClient u := by
  obtain ⟨su, ss, ri, mu, pr, ini, st⟩ := s
  cases st <;> cases ss <;> simp [close, initClient]

/-- C2 counterexample: after the listener has recorded the endpoint of a
first announcement, a second announcement on the stream replaces the
recorded endpoint, so the recorded endpoint does change (the first writer
of the claim does not win). -/
theorem c2_counterexample :
    (listen_line (initClient "http://h") "data: /message?session_id=aaa").message_url
      = some "http://h/message?session_id=aaa" ∧
    (listen_line (listen_line (initClient "http://h") "data: /message?session_id=aaa")
        "data: /message?session_id=bbb").message_url
      = some "http://h/message?session_id=bbb" ∧
    ("http://h/message?session_id=bbb" : String) ≠ "http://h/message?session_id=aaa" := by
  refine ⟨by decide, by decide, by decide⟩

/-- C2 amended: an endpoint announcement on the stream always overwrites the
recorded submission endpoint, whatever was recorded before (last writer
wins), and the listener processes the re-announcement without failing. -/
theorem c2_endpoint_overwrite (s : ClientState) :
    (listen_line s "data: /message?session_id=abc-123").message_url
      = some (s.server_url ++ "/message?session_id=abc-123") := rfl

/-- C4 counterexample: in a Handshaking state (endpoint known, initialize
not completed, initialized = False) a tool call does not fail with the
not-connected error and performs a network POST, because _send_request only
guards on message_url and never consults the initialized flag. -/
theorem c4_counterexample :
    c4State.client.initialized = false ∧
    exceptIsOk c4Call.1 = true ∧
    c4Call.2.posts.length = 1 := by decide

/-- C4 amended: a tool call attempted before the submission endpoint is
known fails fast with the "Not connected." error and performs no network
call (the world, including the POST log, is unchanged); the initialized
flag is never consulted. -/
theorem c4_not_connected (w : World) (tool : String) (args : Json)
    (postOk : Bool) (postErr : String) (arrivals : List String)
    (h : urlTruthy w.client.message_url = false) :
    call_tool w tool args postOk postErr arrivals = (Except.error "Not connected.", w) := by
  rw [call_tool, send_request, if_pos h]

theorem c4_witness :
    urlTruthy (initWorld "http://h").client.message_url = false ∧
    call_tool (initWorld "http://h") "manage_applications" Json.null true "" []
      = (Except.error "Not connected.", initWorld "http://h") :=
  ⟨rfl, c4_not_connected (initWorld "http://h") "manage_applications" Json.null true "" [] rfl⟩

/-- C1 counterexample: in the end-to-end scenario of the claim the stream
announces the endpoint, connect() returns without error, and the first tool
call manage_applications/application_list is then sent with request id 2,
not 1, because the initialize handshake consumed id 1; when the stream then
emits the response envelope with id 1, the call is not resolved by it and
extract_content of the returned envelope is "", not the announced text. -/
theorem c1_counterexample :
    exceptIsOk c1Connect.1 = true ∧
    c1SentId = some 2 ∧
    c1SentId ≠ some 1 ∧
    c1Extract1 = some (some "") := by decide

/-- C1 amended: in the end-to-end scenario the first tool call after
connect() is sent with request id 2 (id 1 was consumed by the initialize
request), and when the stream emits the content envelope carrying id 2,
extract_content of the returned envelope is "FaceRecognition,ObjectTracking". -/
theorem c1_scenario :
    exceptIsOk c1Connect.1 = true ∧
    c1SentId = some 2 ∧
    c1Extract2 = some (some "FaceRecognition,ObjectTracking") := by decide

theorem listen_lines_fields (ls : List String) : ∀ s : ClientState,
    pendingKeys (listen_lines s ls) = pendingKeys s ∧
    (listen_lines s ls).request_id = s.request_id ∧
    (listen_lines s ls).server_url = s.server_url ∧
    (listen_lines s ls).initialized = s.initialized := by
  induction ls with
  | nil => intro s; exact ⟨rfl, rfl, rfl, rfl⟩
  | cons l t ih =>
    intro s
    have h1 := listen_line_fields s l
    have h2 := ih (listen_line s l)
    simp only [listen_lines, List.foldl] at h2 ⊢
    exact ⟨h2.1.trans h1.1, h2.2.1.trans h1.2.1, h2.2.2.1.trans h1.2.2.1, h2.2.2.2.trans h1.2.2.2⟩

theorem futLookup_any (l : List (Nat × Option Json)) (k : Nat) (idv : Json)
    (hm : idMatches idv k = true) (hl : futLookup l k = some none) :
    l.any (fun p => idMatches idv p.1) = true := by
  induction l with
  | nil => rw [futLookup] at hl; simp at hl
  | cons a t ih =>
    by_cases hk : (a.1 == k) = true
    · rw [List.any_cons]
      have hma : idMatches idv a.1 = true := by rw [eq_of_beq hk]; exact hm
      rw [hma]
      rfl
    · have hpa : ¬ (fun q : Nat × Option Json => q.1 == k) a = true := hk
      rw [futLookup, List.find?_cons_of_neg t hpa] at hl
      rw [List.any_cons, ih hl, Bool.or_true]

theorem futLookup_map_update (l : List (Nat × Option Json)) (k : Nat) (idv : Json) (j : Json)
    (hm : idMatches idv k = true) (hl : futLookup l k = some none) :
    futLookup (l.map (fun p => if idMatches idv p.1 && p.2.isNone then (p.1, some j) else p)) k
      = some (some j) := by
  induction l with
  | nil => rw [futLookup] at hl; simp at hl
  | cons a t ih =>
    by_cases hk : (a.1 == k) = true
    · have ha2 : a.2 = none := by
        simp only [futLookup, List.find?_cons, hk, Option.map_some] at hl
        simpa using hl
      have hcond : (idMatches idv a.1 && a.2.isNone) = true := by
        rw [eq_of_beq hk, ha2, hm]
        rfl
      rw [List.map_cons, if_pos hcond]
      simp only [futLookup, List.find?_cons, hk]
      rfl
    · have hkf : (a.1 == k) = false := by
        revert hk
        cases (a.1 == k) <;> simp
      simp only [futLookup, List.find?_cons, hkf] at hl
      have hrec := ih hl
      rw [futLookup] at hrec
      by_cases hc : (idMatches idv a.1 && a.2.isNone) = true
      · rw [List.map_cons, if_pos hc]
        simp only [futLookup, List.find?_cons, hkf]
        exact hrec
      · rw [List.map_cons, if_neg hc]
        simp only [futLookup, List.find?_cons, hkf]
        exact hrec

/-- C3 amended: the resolve step of the listener never removes an identifier from
the pending mapping (it only completes the slot; entries are removed only by
the error path of _send_request); an envelope whose id matches no pending
request, or carries no id, is a no-op, and the step is total so it cannot
raise. -/
theorem c3_resolve (s : ClientState) (fs : List (String × Json)) :
    pendingKeys (handle_json s (Json.obj fs)) = pendingKeys s ∧
    (lookupField fs "id" = none → handle_json s (Json.obj fs) = s) ∧
    (∀ idv, lookupField fs "id" = some idv →
      s.pending_responses.all (fun p => !(idMatches idv p.1)) = true →
      handle_json s (Json.obj fs) = s) ∧
    (∀ idv k, lookupField fs "id" = some idv → idMatches idv k = true →
      futLookup s.pending_responses k = some none →
      futLookup (handle_json s (Json.obj fs)).pending_responses k = some (some (Json.obj fs))) := by
  refine ⟨(handle_json_fields s (Json.obj fs)).1, ?_, ?_, ?_⟩
  · intro hid
    simp only [handle_json, hid]
  · intro idv hid hall
    have hany : s.pending_responses.any (fun p => idMatches idv p.1) = false := by
      rw [← Bool.not_eq_true]
      intro hcontra
      rw [List.any_eq_true] at hcontra
      obtain ⟨p, hp, hpm⟩ := hcontra
      have := List.all_eq_true.mp hall p hp
      rw [hpm] at this
      exact Bool.noConfusion this
    simp only [handle_json, hid, hany, Bool.false_eq_true, if_false]
  · intro idv k hid hm hfl
    have hany : s.pending_responses.any (fun p => idMatches idv p.1) = true :=
      futLookup_any s.pending_responses k idv hm hfl
    simp only [handle_json, hid, hany, if_true]
    exact futLookup_map_update s.pending_responses k idv (Json.obj fs) hm hfl

/-- C3 counterexample: with id 1 pending and unresolved, routing the
envelope with id 1 completes the slot but id 1 remains in the pending
mapping, so resolve does not remove the identifier as the claim states. -/
theorem c3_counterexample :
    pendingKeys (handle_json c3State c3Resp) = [1] ∧
    futLookup (handle_json c3State c3Resp).pending_responses 1 = some (some c3Resp) :=
  ⟨rfl, rfl⟩

theorem c3_witness :
    pendingKeys (handle_json c3WState (Json.obj c3WFields)) = pendingKeys c3WState ∧
    handle_json c3NState (Json.obj c3WFields) = c3NState ∧
    futLookup (handle_json c3WState (Json.obj c3WFields)).pending_responses 2
      = some (some (Json.obj c3WFields)) := by
  refine ⟨(c3_resolve c3WState c3WFields).1, ?_, ?_⟩
  · exact (c3_resolve c3NState c3WFields).2.2.1 (Json.num 2) rfl rfl
  · exact (c3_resolve c3WState c3WFields).2.2.2 (Json.num 2) 2 rfl rfl rfl

theorem futLookup_filter_ne (l : List (Nat × Option Json)) (k : Nat) :
    futLookup (l.filter (fun p => !(p.1 == k))) k = none := by
  have hf : List.find? (fun q : Nat × Option Json => q.1 == k)
      (l.filter (fun p => !(p.1 == k))) = none := by
    rw [List.find?_eq_none]
    intro p hp
    have h2 := (List.mem_filter.mp hp).2
    simpa using h2
  rw [futLookup, hf]
  rfl

theorem futLookup_dropPending (c : ClientState) (rid : Nat) :
    futLookup (dropPending c rid).pending_responses rid = none :=
  futLookup_filter_ne c.pending_responses rid

/-- C5: for a call whose POST raises, and for a call whose awaited response
never arrives before the timeout, _send_request removes the pending
registration of its request id and returns an error-shaped dict result to
the caller instead of propagating the exception. -/
theorem c5_error_cleanup (w : World) (m : String) (pj : Json) (err : String) (arr : List String)
    (h : urlTruthy w.client.message_url = true) :
    ((send_request w m pj false err arr).1 = Except.ok (Json.obj [("error", Json.str err)]) ∧
     futLookup (send_request w m pj false err arr).2.client.pending_responses
       (w.client.request_id + 1) = none) ∧
    (futLookup (listen_lines (registerClient w.client) arr).pending_responses
        (w.client.request_id + 1) = some none →
      (send_request w m pj true err arr).1 = Except.ok (Json.obj [("error", Json.str "")]) ∧
      futLookup (send_request w m pj true err arr).2.client.pending_responses
        (w.client.request_id + 1) = none) := by
  have hni : ¬ (urlTruthy w.client.message_url = false) := by rw [h]; simp
  refine ⟨⟨?_, ?_⟩, fun hto => ⟨?_, ?_⟩⟩
  · rw [send_request, if_neg hni]
    rfl
  · rw [send_request, if_neg hni]
    exact futLookup_dropPending (registerClient w.client) (w.client.request_id + 1)
  · rw [send_request, if_neg hni, hto]
    rfl
  · rw [send_request, if_neg hni, hto]
    exact futLookup_dropPending (listen_lines (registerClient w.client) arr)
      (w.client.request_id + 1)

theorem c5_witness :
    urlTruthy connectedWorld.client.message_url = true ∧
    (send_request connectedWorld "tools/call" Json.null false "boom" []).1
      = Except.ok (Json.obj [("error", Json.str "boom")]) ∧
    futLookup (send_request connectedWorld "tools/call" Json.null false "boom"
      []).2.client.pending_responses 1 = none ∧
    (send_request connectedWorld "tools/call" Json.null true "boom" []).1
      = Except.ok (Json.obj [("error", Json.str "")]) ∧
    futLookup (send_request connectedWorld "tools/call" Json.null true "boom"
      []).2.client.pending_responses 1 = none := by
  have hm := c5_error_cleanup connectedWorld "tools/call" Json.null "boom" [] rfl
  exact ⟨rfl, hm.1.1, hm.1.2, (hm.2 rfl).1, (hm.2 rfl).2⟩

theorem send_request_ok (w : World) (m : String) (pj : Json) (ok : Bool) (err : String)
    (arr : List String) (h : urlTruthy w.client.message_url = true) :
    ∃ v w1, send_request w m pj ok err arr = (Except.ok v, w1) ∧
      urlTruthy w1.client.message_url = true ∧
      w1.client.initialized = w.client.initialized := by
  have hni : ¬ (urlTruthy w.client.message_url = false) := by rw [h]; simp
  cases ok with
  | false =>
    refine ⟨Json.obj [("error", Json.str err)],
      { client := dropPending (registerClient w.client) (w.client.request_id + 1)
        posts := w.posts }, ?_, h, rfl⟩
    rw [send_request, if_neg hni]
    rfl
  | true =>
    cases hfl : futLookup (listen_lines (registerClient w.client) arr).pending_responses
        (w.client.request_id + 1) with
    | some o =>
      cases o with
      | some v =>
        refine ⟨v,
          { client := listen_lines (registerClient w.client) arr
            posts := w.posts ++ [(w.client.message_url.getD "",
              requestPayload (w.client.request_id + 1) m pj)] }, ?_, ?_, ?_⟩
        · rw [send_request, if_neg hni, hfl]
          rfl
        · exact listen_lines_url_mono arr (registerClient w.client) h
        · exact (listen_lines_fields arr (registerClient w.client)).2.2.2
      | none =>
        refine ⟨Json.obj [("error", Json.str "")],
          { client := dropPending (listen_lines (registerClient w.client) arr)
              (w.client.request_id + 1)
            posts := w.posts ++ [(w.client.message_url.getD "",
              requestPayload (w.client.request_id + 1) m pj)] }, ?_, ?_, ?_⟩
        · rw [send_request, if_neg hni, hfl]
          rfl
        · exact listen_lines_url_mono arr (registerClient w.client) h
        · exact (listen_lines_fields arr (registerClient w.client)).2.2.2
    | none =>
      refine ⟨Json.obj [("error", Json.str "")],
        { client := dropPending (listen_lines (registerClient w.client) arr)
            (w.client.request_id + 1)
          posts := w.posts ++ [(w.client.message_url.getD "",
            requestPayload (w.client.request_id + 1) m pj)] }, ?_, ?_, ?_⟩
      · rw [send_request, if_neg hni, hfl]
        rfl
      · exact listen_lines_url_mono arr (registerClient w.client) h
      · exact (listen_lines_fields arr (registerClient w.client)).2.2.2

theorem send_notification_client (w : World) (m : String) :
    (send_notification w m).client = w.client := by
  rw [send_notification]
  split <;> rfl

/-- C10: _initialize marks the session initialized and sends the
fire-and-forget initialized notification unconditionally after the
initialize request returns, also when that request failed to POST or timed
out (such failures return an error-shaped dict rather than raising), and the
client is left in the state that accepts tool calls: the submission endpoint
is still truthy and the notification was the last POST. -/
theorem c10_unconditional (w : World) (ok : Bool) (err : String) (arr : List String)
    (h : urlTruthy w.client.message_url = true) :
    ∃ w2, initializeClient w ok err arr = (Except.ok (), w2) ∧
      w2.client.initialized = true ∧
      urlTruthy w2.client.message_url = true ∧
      w2.posts.getLast? = some (w2.client.message_url.getD "",
        notifPayload "notifications/initialized") := by
  obtain ⟨v, w1, hsr, hurl, hini⟩ := send_request_ok w "initialize" initParams ok err arr h
  have hX : urlTruthy ({ w1 with client := { w1.client with initialized := true } } : World).client.message_url = true := hurl
  refine ⟨send_notification { w1 with client := { w1.client with initialized := true } }
      "notifications/initialized", ?_, ?_, ?_, ?_⟩
  · rw [initializeClient, hsr]
  · rw [send_notification_client]
  · rw [send_notification_client]
    exact hurl
  · rw [send_notification_client]
    rw [send_notification, if_pos hX]
    exact List.getLast?_concat _

theorem c10_witness :
    urlTruthy connectedWorld.client.message_url = true ∧
    ∃ w2, initializeClient connectedWorld false "boom" [] = (Except.ok (), w2) ∧
      w2.client.initialized = true ∧
      urlTruthy w2.client.message_url = true ∧
      w2.posts.getLast? = some (w2.client.message_url.getD "",
        notifPayload "notifications/initialized") :=
  ⟨rfl, c10_unconditional connectedWorld false "boom" [] rfl⟩

theorem filterBlocks_good (bs : List Json) (h : bs.all goodBlock = true) :
    filterBlocks bs = some ((blockTexts bs).map Json.str) := by
  induction bs with
  | nil => rfl
  | cons b rest ih =>
    simp only [List.all_cons, Bool.and_eq_true] at h
    obtain ⟨hb, hrest⟩ := h
    cases b with
    | obj fs =>
      rw [filterBlocks, ih hrest, blockTexts]
      by_cases ht : isStr (pyDictGet fs "type" Json.null) "text" = true
      · rw [goodBlock, if_pos ht] at hb
        cases hx : pyDictGet fs "text" (Json.str "") with
        | str t => simp [ht, hx, jsonStrD]
        | null => rw [hx] at hb; exact Bool.noConfusion hb
        | num n => rw [hx] at hb; exact Bool.noConfusion hb
        | bool b2 => rw [hx] at hb; exact Bool.noConfusion hb
        | arr xs => rw [hx] at hb; exact Bool.noConfusion hb
        | obj gs => rw [hx] at hb; exact Bool.noConfusion hb
      · have htf : isStr (pyDictGet fs "type" Json.null) "text" = false := by
          revert ht
          cases isStr (pyDictGet fs "type" Json.null) "text" <;> simp
        simp [htf]
    | null => exact Bool.noConfusion hb
    | str a => exact Bool.noConfusion hb
    | num a => exact Bool.noConfusion hb
    | bool a => exact Bool.noConfusion hb
    | arr a => exact Bool.noConfusion hb

theorem joinStrs_map_str (l : List String) :
    joinStrs (l.map Json.str) = some (String.intercalate "\n" l) := by
  have h2 : (l.map Json.str).filterMap
      (fun j => match j with | Json.str s => some s | _ => none) = l := by
    induction l with
    | nil => rfl
    | cons a t ih => simp only [List.map_cons, List.filterMap_cons, ih]
  have h1 : (l.map Json.str).all
      (fun j => match j with | Json.str _ => true | _ => false) = true := by
    rw [List.all_eq_true]
    intro j hj
    obtain ⟨a, ha, rfl⟩ := List.mem_map.mp hj
    rfl
  rw [joinStrs, if_pos h1, h2]

theorem any_eq_false_of_all_not {α : Type} (l : List α) (p : α → Bool)
    (h : l.all (fun a => !(p a)) = true) : l.any p = false := by
  induction l with
  | nil => rfl
  | cons a t ih =>
    simp only [List.all_cons, Bool.and_eq_true] at h
    obtain ⟨h1, h2⟩ := h
    rw [List.any_cons, ih h2, Bool.or_false]
    revert h1
    cases p a <;> simp

theorem extract_no_result (fs : List (String × Json))
    (h : fs.any (fun q => q.1 == "result") = false) :
    extract_content (Json.obj fs) = some "" := by
  cases fs with
  | nil => rfl
  | cons q qs =>
    rw [extract_content, if_neg (by simp [truthy])]
    split
    · next heq => rw [pyIn] at heq; exact Option.noConfusion heq
    · rfl
    · next heq =>
      rw [pyIn] at heq
      rw [Option.some.injEq] at heq
      rw [h] at heq
      exact Bool.noConfusion heq

theorem extract_result_no_content (gs fs : List (String × Json))
    (h : gs.any (fun q => q.1 == "content") = false) :
    extract_content (Json.obj (("result", Json.obj gs) :: fs)) = some "" := by
  rw [extract_content, if_neg (by simp [truthy])]
  split
  · next heq => rw [pyIn] at heq; exact Option.noConfusion heq
  · rfl
  · next heq =>
    split
    · next heq2 =>
      rw [show subscript (Json.obj (("result", Json.obj gs) :: fs)) "result"
          = some (Json.obj gs) from rfl] at heq2
      exact Option.noConfusion heq2
    · next res heq2 =>
      rw [show subscript (Json.obj (("result", Json.obj gs) :: fs)) "result"
          = some (Json.obj gs) from rfl] at heq2
      rw [Option.some.injEq] at heq2
      subst heq2
      split
      · next heq3 => rw [pyIn] at heq3; exact Option.noConfusion heq3
      · rfl
      · next heq3 =>
        rw [pyIn, Option.some.injEq, h] at heq3
        exact Bool.noConfusion heq3

/-- C6: extract_content is a pure function of the envelope; on an envelope
whose result.content is a list of well-formed blocks it returns exactly the
text fields of the "text"-typed blocks, in order, joined with a newline; and
it returns the empty string on any envelope without a result field (an
error-shaped result in particular) and on any result without a content
field. -/
theorem c6_extract_text (bs : List Json) (fs gs : List (String × Json))
    (hb : bs.all goodBlock = true)
    (hres : fs.all (fun q => !(q.1 == "result")) = true)
    (hcon : gs.all (fun q => !(q.1 == "content")) = true) :
    extract_content (Json.obj [("result", Json.obj [("content", Json.arr bs)])])
      = some (String.intercalate "\n" (blockTexts bs)) ∧
    extract_content (Json.obj fs) = some "" ∧
    extract_content (Json.obj (("result", Json.obj gs) :: fs)) = some "" := by
  refine ⟨?_, ?_, ?_⟩
  · rw [show extract_content (Json.obj [("result", Json.obj [("content", Json.arr bs)])])
        = (match filterBlocks bs with
           | none => none
           | some texts => joinStrs texts) from rfl]
    rw [filterBlocks_good bs hb]
    exact joinStrs_map_str (blockTexts bs)
  · exact extract_no_result fs (any_eq_false_of_all_not fs _ hres)
  · exact extract_result_no_content gs fs (any_eq_false_of_all_not gs _ hcon)

theorem c6_witness :
    ([c6BlockA, c6BlockImg, c6BlockB].all goodBlock = true) ∧
    extract_content (Json.obj [("result",
        Json.obj [("content", Json.arr [c6BlockA, c6BlockImg, c6BlockB])])])
      = some "A\nB" ∧
    extract_content (Json.obj [("error", Json.str "boom")]) = some "" ∧
    extract_content (Json.obj (("result", Json.obj [("ok", Json.null)])
        :: [("error", Json.str "boom")])) = some "" := by
  have hm := c6_extract_text [c6BlockA, c6BlockImg, c6BlockB]
    [("error", Json.str "boom")] [("ok", Json.null)] (by decide) (by decide) (by decide)
  exact ⟨by decide, hm.1.trans (by decide), hm.2.1, hm.2.2⟩

theorem clientInv_of_fields (c d : ClientState) (hk : pendingKeys d = pendingKeys c)
    (hr : d.request_id = c.request_id) (h : ClientInv c) : ClientInv d := by
  obtain ⟨hnd, hb⟩ := h
  constructor
  · rw [hk]
    exact hnd
  · intro k hkm
    rw [hk] at hkm
    rw [hr]
    exact hb k hkm

theorem close_fields (c : ClientState) :
    pendingKeys (close c) = pendingKeys c ∧ (close c).request_id = c.request_id := by
  obtain ⟨su, ss, ri, mu, pr, ini, st⟩ := c
  cases st <;> cases ss <;> simp [close, pendingKeys]

theorem clientInv_listen (ls : List String) (c : ClientState) (h : ClientInv c) :
    ClientInv (listen_lines c ls) :=
  clientInv_of_fields c (listen_lines c ls) (listen_lines_fields ls c).1
    (listen_lines_fields ls c).2.1 h

theorem clientInv_dropPending (c : ClientState) (rid : Nat) (h : ClientInv c) :
    ClientInv (dropPending c rid) := by
  obtain ⟨hnd, hb⟩ := h
  have hsub : ((c.pending_responses.filter (fun p => !(p.1 == rid))).map (fun p => p.1)).Sublist
      (c.pending_responses.map (fun p => p.1)) :=
    (List.filter_sublist c.pending_responses).map (fun p => p.1)
  constructor
  · exact hnd.sublist hsub
  · intro k hk
    exact hb k (hsub.subset hk)

theorem clientInv_register (c : ClientState) (h : ClientInv c) :
    ClientInv (registerClient c) := by
  obtain ⟨hnd, hb⟩ := h
  have hkeys : pendingKeys (registerClient c) = pendingKeys c ++ [c.request_id + 1] := by
    simp [registerClient, pendingKeys]
  constructor
  · rw [hkeys, List.nodup_append]
    refine ⟨hnd, List.nodup_singleton _, ?_⟩
    intro a ha hamem
    rw [List.mem_singleton] at hamem
    subst hamem
    have hba := hb _ ha
    omega
  · intro k hk
    rw [hkeys, List.mem_append] at hk
    have hr : (registerClient c).request_id = c.request_id + 1 := rfl
    rcases hk with hk | hk
    · have hbk := hb k hk
      rw [hr]
      omega
    · rw [List.mem_singleton] at hk
      subst hk
      rw [hr]
      omega

theorem applyOp_inv (w : World) (op : Op) (h : ClientInv w.client) :
    ClientInv (applyOp w op).client ∧
    w.client.request_id ≤ (applyOp w op).client.request_id := by
  cases op with
  | hear ls =>
    refine ⟨clientInv_listen ls w.client h, ?_⟩
    show w.client.request_id ≤ (listen_lines w.client ls).request_id
    rw [(listen_lines_fields ls w.client).2.1]
  | closeOp =>
    have hc := close_fields w.client
    refine ⟨clientInv_of_fields w.client (close w.client) hc.1 hc.2 h, ?_⟩
    show w.client.request_id ≤ (close w.client).request_id
    rw [hc.2]
  | send m pj ok err arr =>
    simp only [applyOp]
    by_cases hu : urlTruthy w.client.message_url = false
    · rw [send_request, if_pos hu]
      exact ⟨h, Nat.le_refl _⟩
    · rw [send_request, if_neg hu]
      cases ok with
      | false =>
        constructor
        · exact clientInv_dropPending _ _ (clientInv_register _ h)
        · exact Nat.le_succ _
      | true =>
        cases hfl : futLookup (listen_lines (registerClient w.client) arr).pending_responses
            (w.client.request_id + 1) with
        | some o =>
          cases o with
          | some v =>
            constructor
            · exact clientInv_listen arr _ (clientInv_register _ h)
            · show w.client.request_id ≤ (listen_lines (registerClient w.client) arr).request_id
              rw [(listen_lines_fields arr (registerClient w.client)).2.1]
              exact Nat.le_succ _
          | none =>
            constructor
            · exact clientInv_dropPending _ _ (clientInv_listen arr _ (clientInv_register _ h))
            · show w.client.request_id ≤ (listen_lines (registerClient w.client) arr).request_id
              rw [(listen_lines_fields arr (registerClient w.client)).2.1]
              exact Nat.le_succ _
        | none =>
          constructor
          · exact clientInv_dropPending _ _ (clientInv_listen arr _ (clientInv_register _ h))
          · show w.client.request_id ≤ (listen_lines (registerClient w.client) arr).request_id
            rw [(listen_lines_fields arr (registerClient w.client)).2.1]
            exact Nat.le_succ _

theorem applyOp_send_request_id (w : World) (m : String) (pj : Json) (ok : Bool)
    (err : String) (arr : List String) (hu : urlTruthy w.client.message_url = true) :
    (applyOp w (Op.send m pj ok err arr)).client.request_id = w.client.request_id + 1 := by
  have hni : ¬ (urlTruthy w.client.message_url = false) := by rw [hu]; simp
  simp only [applyOp]
  rw [send_request, if_neg hni]
  cases ok with
  | false => rfl
  | true =>
    cases hfl : futLookup (listen_lines (registerClient w.client) arr).pending_responses
        (w.client.request_id + 1) with
    | some o =>
      cases o with
      | some v =>
        exact (listen_lines_fields arr (registerClient w.client)).2.1
      | none =>
        exact (listen_lines_fields arr (registerClient w.client)).2.1
    | none =>
      exact (listen_lines_fields arr (registerClient w.client)).2.1

theorem allocIds_facts (ops : List Op) : ∀ w : World, ClientInv w.client →
    ClientInv (runOps w ops).client ∧
    (∀ i ∈ allocIds w ops, w.client.request_id < i) ∧
    List.Chain' (fun a b => a < b) (allocIds w ops) := by
  induction ops with
  | nil =>
    intro w h
    exact ⟨h, fun i hi => absurd hi (List.not_mem_nil i), List.chain'_nil⟩
  | cons op rest ih =>
    intro w h
    have hstep := applyOp_inv w op h
    have hrest := ih (applyOp w op) hstep.1
    refine ⟨hrest.1, ?_, ?_⟩
    · intro i hi
      cases op with
      | send m pj ok err arr =>
        simp only [allocIds] at hi
        by_cases hu : urlTruthy w.client.message_url = true
        · rw [if_pos hu] at hi
          rcases List.mem_cons.mp hi with hi | hi
          · omega
          · have h1 := hrest.2.1 i hi
            have h2 := hstep.2
            omega
        · rw [if_neg hu] at hi
          have h1 := hrest.2.1 i hi
          have h2 := hstep.2
          omega
      | hear ls =>
        simp only [allocIds] at hi
        have h1 := hrest.2.1 i hi
        have h2 := hstep.2
        omega
      | closeOp =>
        simp only [allocIds] at hi
        have h1 := hrest.2.1 i hi
        have h2 := hstep.2
        omega
    · cases op with
      | send m pj ok err arr =>
        simp only [allocIds]
        by_cases hu : urlTruthy w.client.message_url = true
        · rw [if_pos hu]
          rw [List.chain'_cons']
          refine ⟨?_, hrest.2.2⟩
          intro b hb
          have hbmem : b ∈ allocIds (applyOp w (Op.send m pj ok err arr)) rest :=
            List.mem_of_mem_head? hb
          have h1 := hrest.2.1 b hbmem
          have h2 := applyOp_send_request_id w m pj ok err arr hu
          omega
        · rw [if_neg hu]
          exact hrest.2.2
      | hear ls =>
        simp only [allocIds]
        exact hrest.2.2
      | closeOp =>
        simp only [allocIds]
        exact hrest.2.2

/-- C9: along any run of a session started by __init__, the request
identifiers the correlator allocates are strictly increasing, hence unique
and never reused, and the pending-request mapping always holds at most one
entry per identifier. -/
theorem c9_identifiers (u : String) (ops : List Op) :
    List.Chain' (fun a b => a < b) (allocIds (initWorld u) ops) ∧
    (allocIds (initWorld u) ops).Nodup ∧
    (pendingKeys (runOps (initWorld u) ops).client).Nodup := by
  have hinv : ClientInv (initWorld u).client :=
    ⟨List.nodup_nil, fun k hk => absurd hk (List.not_mem_nil k)⟩
  have h := allocIds_facts ops (initWorld u) hinv
  refine ⟨h.2.2, ?_, h.1.1⟩
  have hp : List.Pairwise (fun a b => a < b) (allocIds (initWorld u) ops) :=
    List.chain'_iff_pairwise.mp h.2.2
  exact hp.imp (fun hab => Nat.ne_of_lt hab)
